import Mathlib

/-!
Verification development for the `hob` device-discovery service.

The source under scrutiny is `src/index.js` (the reconciliation loop
`deviceScan`, the device table, and the `/devices` HTTP endpoint),
`src/sku.js` (the SSH-backed probes `waitSSH`, `buildStamp`,
`biosVersion`, `kernel` and the derived `sku` / `projection` getters),
and `src/network.js` (the scan source and resolver, treated as oracles
here since the claims only depend on their `string | null` results).

JavaScript-specific value semantics are embedded explicitly:
* an optional field that was never assigned is `undefined`, which is
  distinct from an assigned `null`; we use `Option (Option α)` (or
  `Option α` when `null` is never assigned to the field);
* the `tolerance` counter is subject to JS numeric coercion: a new scan
  object has no `tolerance` property, so `device.tolerance++` evaluates
  `undefined + 1 = NaN`, and `NaN > MAX_TOLERANCE` is `false`.  The
  inductive type `Tol` mirrors exactly these three behaviours.

Real time and process scheduling are abstracted: `Date.now()` values are
parameters, and each external invocation is summarised by its outcome
(`ProcResult` for SSH probes, result functions for resolver and build
stamp).  Within one reconciliation cycle every classification task
mutates only its own freshly created device object, and the loop awaits
all of them before the cycle ends, so the end-of-cycle table state is a
pure function of the oracles; the fold below computes it.
-/

namespace Hob

/-- Constant `MAX_TOLERANCE` from `src/index.js`. -/
def MAX_TOLERANCE : Nat := 5

/-- The JS value stored in the `tolerance` property: absent
(`undefined`), `NaN` (result of arithmetic on `undefined`/`NaN`), or an
actual number. -/
inductive Tol where
  | undef : Tol
  | nan : Tol
  | num : Nat → Tol
deriving DecidableEq, Repr

/-- JS `device.tolerance++`: `undefined + 1 = NaN`, `NaN + 1 = NaN`,
`n + 1` otherwise. -/
def Tol.inc : Tol → Tol
  | .undef => .nan
  | .nan => .nan
  | .num n => .num (n + 1)

/-- JS `saved.tolerance > MAX_TOLERANCE`: comparisons against
`undefined` or `NaN` are `false`. -/
def Tol.gtMax : Tol → Bool
  | .num n => decide (MAX_TOLERANCE < n)
  | _ => false

/-- One table entry (`network.Device & sku.SKU` in the source).
`hostname`, `biosVersion`, `kernel` use `Option (Option String)`
(`none` = the property was never assigned, `some none` = assigned JS
`null`).  `buildStamp` is only ever assigned a non-`null` value, hence
`Option String`; `seen` likewise is only ever assigned a number. -/
structure Device where
  mac : String
  ip : String
  hostname : Option (Option String) := none
  buildStamp : Option String := none
  biosVersion : Option (Option String) := none
  kernel : Option (Option String) := none
  seen : Option Int := none
  tolerance : Tol := .undef
deriving DecidableEq, Repr

/-- Getter `skuGetter` from `src/sku.js`: `!!this.buildStamp`.  An unassigned
property and the empty string are both falsy. -/
def Device.sku (d : Device) : Bool :=
  match d.buildStamp with
  | some s => decide (s ≠ "")
  | none => false

/-- One `{ip, mac}` pair produced by the scan source. -/
structure ScanEntry where
  ip : String
  mac : String
deriving DecidableEq, Repr

/-- The device table, keyed by MAC (a JS `Map` in insertion order). -/
def tableGet (t : List Device) (mac : String) : Option Device :=
  t.find? (fun d => d.mac == mac)

/-- JS `Map.set`: replace in place when the key exists (keeping its
position), otherwise append. -/
def tableSet (t : List Device) (d : Device) : List Device :=
  if t.any (fun e => e.mac == d.mac) then
    t.map (fun e => if e.mac == d.mac then d else e)
  else
    t ++ [d]

/-- The eviction loop of `deviceScan` (`src/index.js` lines 29–35):
delete every entry with `now - (seen || 0) >= 6e4`. -/
def evict (now : Int) (t : List Device) : List Device :=
  t.filter (fun d => decide (now - d.seen.getD 0 < 60000))

/-- The skip condition of `deviceScan` (`src/index.js` line 61):
`saved.tolerance > MAX_TOLERANCE || saved.sku`. -/
def skipsProbe (d : Device) : Bool :=
  d.tolerance.gtMax || d.sku

/-- The classification task (`src/index.js` lines 67–92) applied to the
device object it owns.  `r` is `network.resolveHost`'s result, `bs`,
`bv`, `kr` are the results of `sku.buildStamp`, `sku.biosVersion`,
`sku.kernel`, and `tc` is `Date.now()` at task completion.  Note that
`device.hostname = hostname` and `device.seen = Date.now()` run before
the `null` check. -/
def classifyTask (r : Option String) (bs bv kr : Option String) (tc : Int)
    (d : Device) : Device :=
  let d1 := { d with hostname := some r, seen := some tc }
  match r with
  | none => { d1 with tolerance := d1.tolerance.inc }
  | some h =>
    if h = "" then d1
    else
      match bs with
      | some b =>
          { d1 with buildStamp := some b, biosVersion := some bv,
                    kernel := some kr, tolerance := .num 0 }
      | none => { d1 with tolerance := d1.tolerance.inc }

/-- The per-cycle results of the external collaborators, indexed by the
device's IP: `resolve` is `network.resolveHost`, `bs`/`bv`/`kr` are the
SSH probes, `doneAt` is `Date.now()` when the task completes. -/
structure Oracle where
  resolve : String → Option String
  bs : String → Option String
  bv : String → Option String
  kr : String → Option String
  doneAt : String → Int

/-- The state threaded through the merge loop: the per-cycle MAC
de-duplication set, the table, and the MACs for which a classification
task was dispatched this cycle. -/
structure CycleState where
  macs : List String
  table : List Device
  dispatched : List String
deriving Repr

/-- One iteration of the `for (const device of devices)` loop of
`deviceScan` (`src/index.js` lines 38–96). -/
def step (o : Oracle) (now : Int) (ig : List String)
    (s : CycleState) (e : ScanEntry) : CycleState :=
  if s.macs.contains e.mac then s
  else if ig.contains e.mac then s
  else
    match tableGet s.table e.mac with
    | some saved =>
        if skipsProbe { saved with seen := some now, ip := e.ip } then
          { macs := e.mac :: s.macs,
            table := tableSet s.table { saved with seen := some now, ip := e.ip },
            dispatched := s.dispatched }
        else
          { macs := e.mac :: s.macs,
            table := tableSet s.table (classifyTask (o.resolve e.ip)
              (o.bs e.ip) (o.bv e.ip) (o.kr e.ip) (o.doneAt e.ip)
              { mac := e.mac, ip := e.ip, tolerance := saved.tolerance }),
            dispatched := e.mac :: s.dispatched }
    | none =>
        { macs := e.mac :: s.macs,
          table := tableSet s.table (classifyTask (o.resolve e.ip)
            (o.bs e.ip) (o.bv e.ip) (o.kr e.ip) (o.doneAt e.ip)
            { mac := e.mac, ip := e.ip }),
          dispatched := e.mac :: s.dispatched }

/-- One full reconciliation cycle of `deviceScan` (`src/index.js`
lines 23–102): evict, then merge the scan; also reports which MACs were
enqueued for classification.  The end-of-cycle table already reflects
every task's mutations, since the loop awaits `Promise.all(promises)`
before rescheduling. -/
def deviceScanFull (o : Oracle) (now : Int) (ig : List String)
    (scan : List ScanEntry) (t : List Device) : CycleState :=
  scan.foldl (step o now ig) ⟨[], evict now t, []⟩

/-- The table after one reconciliation cycle. -/
def deviceScan (o : Oracle) (now : Int) (ig : List String)
    (scan : List ScanEntry) (t : List Device) : List Device :=
  (deviceScanFull o now ig scan t).table

/-- Computation `nextScan = Math.max(0, 1e4 - (Date.now() - scanStart))`
(`src/index.js` line 99). -/
def nextScanDelay (scanStart now : Int) : Int :=
  max 0 (10000 - (now - scanStart))

/-! ### String primitives

JS `String.prototype.trim`, `split('\n')`, `startsWith('#')` and
`includes(...)`, implemented over character lists so that a concrete
run of the embedding reduces inside the kernel. -/

/-- JS `text.trim()`: strip leading and trailing whitespace. -/
def jsTrim (s : String) : String :=
  ⟨((s.data.dropWhile Char.isWhitespace).reverse.dropWhile
      Char.isWhitespace).reverse⟩

/-- Accumulator worker for `splitNewline`. -/
def splitNewlineAux : List Char → List Char → List String
  | [], acc => [⟨acc.reverse⟩]
  | c :: cs, acc =>
      if c = '\n' then ⟨acc.reverse⟩ :: splitNewlineAux cs []
      else splitNewlineAux cs (c :: acc)

/-- JS `text.split('\n')`: always at least one piece; a trailing
newline produces a trailing empty piece. -/
def splitNewline (s : String) : List String :=
  splitNewlineAux s.data []

/-- JS `line.startsWith('#')`. -/
def startsHash (s : String) : Bool :=
  match s.data with
  | c :: _ => c = '#'
  | [] => false

/-- Does `hay` begin with `needle`? -/
def strLeads : List Char → List Char → Bool
  | [], _ => true
  | _ :: _, [] => false
  | a :: as, b :: bs => a == b && strLeads as bs

/-- JS `hay.includes(needle)`: substring search. -/
def strHas (needle : List Char) : List Char → Bool
  | [] => strLeads needle []
  | c :: cs => strLeads needle (c :: cs) || strHas needle cs

/-! ### SSH probes (`src/sku.js`) -/

/-- Outcome of one spawned SSH process, as observed by `waitSSH`:
either it is still running when the 2000 ms bound expires (and is
killed), or it exited with a code and produced this stdout. -/
inductive ProcResult where
  | timeout : ProcResult
  | exited : Int → String → ProcResult
deriving DecidableEq, Repr

/-- Function `waitSSH` from `src/sku.js` lines 25–54: kill and return `null` on
overrunning the bound, return `null` on non-zero exit, otherwise the
trimmed stdout. -/
def waitSSH : ProcResult → Option String
  | .timeout => none
  | .exited code out => if code ≠ 0 then none else some (jsTrim out)

/-- The scan of `buildStamp`'s `for` loop: the first line that does not
start with `'#'`, if any. -/
def firstNonComment : List String → Option String
  | [] => none
  | l :: ls => if startsHash l then firstNonComment ls else some l

/-- Function `sku.buildStamp` (`src/sku.js` lines 62–73): `null` when `waitSSH`
fails or its (trimmed) content is falsy, else the first non-comment
line of that content, or `null` when every line is a comment. -/
def buildStamp (r : ProcResult) : Option String :=
  match waitSSH r with
  | none => none
  | some content =>
      if content = "" then none
      else
        match firstNonComment (splitNewline content) with
        | some l => some l
        | none => none

/-- Function `sku.biosVersion` (`src/sku.js` lines 81–83). -/
def biosVersion (r : ProcResult) : Option String := waitSSH r

/-- Function `sku.kernel` (`src/sku.js` lines 91–93). -/
def kernel (r : ProcResult) : Option String := waitSSH r

/-! ### HTTP read surface (`src/index.js` lines 107–125) -/

/-- Getter `projectionGetter` from `src/sku.js`: the frozen public view. -/
structure Projection where
  ip : String
  mac : String
  buildStamp : Option String
  biosVersion : Option (Option String)
  kernel : Option (Option String)
deriving DecidableEq, Repr

/-- The projection of a device. -/
def Device.projection (d : Device) : Projection :=
  ⟨d.ip, d.mac, d.buildStamp, d.biosVersion, d.kernel⟩

/-- Test `accept.includes('application/json')`. -/
def includesJson (accept : String) : Bool :=
  strHas ("application/json").data accept.data

/-- JS string coercion of the `hostname` property when it is used as an
object key or joined into text. -/
def hostnameKey : Option (Option String) → String
  | none => "undefined"
  | some none => "null"
  | some (some s) => s

/-- The `/devices` response: a JSON object (as an ordered key/value
list) or a plain-text body. -/
inductive DevicesResponse where
  | json : List (String × Projection) → DevicesResponse
  | text : String → DevicesResponse
deriving DecidableEq, Repr

/-- The `/devices` handler (`src/index.js` lines 107–125): pick the
shape by the Accept header, then include exactly the devices whose
`sku` getter is true, keyed/listed by their current hostname. -/
def devicesEndpoint (accept : String) (t : List Device) : DevicesResponse :=
  if includesJson accept then
    .json ((t.filter (fun d => d.sku)).map
      (fun d => (hostnameKey d.hostname, d.projection)))
  else
    .text (String.intercalate ","
      ((t.filter (fun d => d.sku)).map (fun d => hostnameKey d.hostname)))

/-- The table's key-uniqueness invariant (a JS `Map` cannot hold two
entries for one MAC). -/
abbrev keysNodup (t : List Device) : Prop :=
  (t.map (fun d => d.mac)).Nodup

/-! ### Concrete fixtures -/

/-- Oracle where every external probe fails (`resolveHost` returns
`null`, build stamp / BIOS / kernel reads return `null`). -/
def nullOracle : Oracle :=
  { resolve := fun _ => none, bs := fun _ => none, bv := fun _ => none,
    kr := fun _ => none, doneAt := fun _ => 0 }

/-- A scan snapshot with a single device. -/
def oneScan : List ScanEntry := [⟨"10.0.0.5", "AA:BB"⟩]

/-- The table after `n` reconciliation cycles that all see `oneScan`
and whose probes all fail. -/
def cycleN : Nat → List Device
  | 0 => []
  | n + 1 => deviceScan nullOracle 0 [] oneScan (cycleN n)

/-- Oracle that resolves a hostname and reads an empty build stamp. -/
def emptyBsOracle : Oracle :=
  { resolve := fun _ => some "boxy", bs := fun _ => some "",
    bv := fun _ => some "B1", kr := fun _ => some "K1",
    doneAt := fun _ => 0 }

/-- Table after one cycle classifying via `emptyBsOracle`. -/
def t3a : List Device := deviceScan emptyBsOracle 0 [] oneScan []

/-- Oracle that resolves a hostname but obtains no build stamp. -/
def hOracle : Oracle :=
  { resolve := fun _ => some "boxy", bs := fun _ => none,
    bv := fun _ => none, kr := fun _ => none, doneAt := fun _ => 0 }

/-- Table after one cycle with a resolved hostname and no build stamp. -/
def t6a : List Device := deviceScan hOracle 0 [] oneScan []

/-- Table `t6a` after a further cycle whose resolution fails. -/
def t6b : List Device := deviceScan nullOracle 0 [] oneScan t6a

/-- A bare device object as created from a scan entry. -/
def dev0 : Device := { mac := "AA:BB", ip := "10.0.0.5" }

/-- A stale table entry (`seen = 0`). -/
def stale0 : Device := { mac := "CC:DD", ip := "10.0.0.9", seen := some 0 }

/-- A classified table entry. -/
def skuDev : Device :=
  { mac := "AA:BB", ip := "10.0.0.5", buildStamp := some "2024-01-01",
    seen := some 0 }

/-! ### Table and fold lemmas -/

theorem tableGet_mem {t : List Device} {mac : String} {d : Device}
    (h : tableGet t mac = some d) : d ∈ t ∧ d.mac = mac := by
  refine ⟨List.mem_of_find?_eq_some h, ?_⟩
  have := List.find?_some h
  simpa using this

theorem tableGet_eq_none_iff {t : List Device} {mac : String} :
    tableGet t mac = none ↔ ∀ d ∈ t, d.mac ≠ mac := by
  unfold tableGet
  rw [List.find?_eq_none]
  constructor
  · intro h d hd
    have := h d hd
    simpa using this
  · intro h d hd
    simpa using h d hd

theorem tableGet_isSome_of_mem {t : List Device} {d : Device}
    (hd : d ∈ t) : (tableGet t d.mac).isSome = true := by
  cases hfind : tableGet t d.mac with
  | some x => rfl
  | none =>
      exact absurd rfl (tableGet_eq_none_iff.mp hfind d hd)

theorem mem_tableSet {t : List Device} {d x : Device}
    (hx : x ∈ tableSet t d) : x = d ∨ x ∈ t := by
  unfold tableSet at hx
  split at hx
  · rcases List.mem_map.mp hx with ⟨e, he, hmap⟩
    by_cases hem : (e.mac == d.mac) = true
    · simp [hem] at hmap
      exact Or.inl hmap.symm
    · simp [hem] at hmap
      exact Or.inr (hmap ▸ he)
  · rcases List.mem_append.mp hx with h | h
    · exact Or.inr h
    · simp at h
      exact Or.inl h

theorem tableGet_isSome_iff {t : List Device} {mac : String} :
    (tableGet t mac).isSome = true ↔ ∃ d ∈ t, d.mac = mac := by
  constructor
  · intro h
    cases hfind : tableGet t mac with
    | none => rw [hfind] at h; simp at h
    | some x =>
        rcases tableGet_mem hfind with ⟨hm, hmac⟩
        exact ⟨x, hm, hmac⟩
  · rintro ⟨d, hd, hmac⟩
    exact hmac ▸ tableGet_isSome_of_mem hd

theorem mem_tableSet_self {t : List Device} (d : Device) :
    ∃ x ∈ tableSet t d, x.mac = d.mac := by
  unfold tableSet
  split
  · rename_i hany
    rcases List.any_eq_true.mp hany with ⟨e, he, hem⟩
    refine ⟨d, List.mem_map.mpr ⟨e, he, by simp [hem]⟩, rfl⟩
  · exact ⟨d, List.mem_append.mpr (Or.inr (by simp)), rfl⟩

theorem tableGet_isSome_tableSet {t : List Device} {d : Device} {mac : String}
    (h : (tableGet t mac).isSome = true) :
    (tableGet (tableSet t d) mac).isSome = true := by
  rcases tableGet_isSome_iff.mp h with ⟨x, hx, hxmac⟩
  refine tableGet_isSome_iff.mpr ?_
  unfold tableSet
  split
  · by_cases hxd : (x.mac == d.mac) = true
    · refine ⟨d, List.mem_map.mpr ⟨x, hx, by simp [hxd]⟩, ?_⟩
      have : x.mac = d.mac := by simpa using hxd
      rw [← this, hxmac]
    · exact ⟨x, List.mem_map.mpr ⟨x, hx, by simp [hxd]⟩, hxmac⟩
  · exact ⟨x, List.mem_append.mpr (Or.inl hx), hxmac⟩

theorem tableGet_tableSet_ne {t : List Device} {d : Device} {mac : String}
    (hne : d.mac ≠ mac) : tableGet (tableSet t d) mac = tableGet t mac := by
  unfold tableSet
  split
  · rename_i hany
    clear hany
    induction t with
    | nil => rfl
    | cons e es ih =>
        rw [List.map_cons]
        by_cases hem : (e.mac == d.mac) = true
        · rw [if_pos hem]
          have he : e.mac = d.mac := by simpa using hem
          unfold tableGet
          rw [List.find?_cons_of_neg _ (by simp [hne]),
              List.find?_cons_of_neg _ (by simp [he, hne])]
          exact ih
        · rw [if_neg hem]
          unfold tableGet
          by_cases hem2 : (e.mac == mac) = true
          · rw [List.find?_cons_of_pos _ (by simpa using hem2),
                List.find?_cons_of_pos _ (by simpa using hem2)]
          · rw [List.find?_cons_of_neg _ (by simpa using hem2),
                List.find?_cons_of_neg _ (by simpa using hem2)]
            exact ih
  · rename_i hany
    clear hany
    unfold tableGet
    induction t with
    | nil =>
        simp only [List.nil_append]
        rw [List.find?_cons_of_neg _ (by simp [hne])]
    | cons e es ih =>
        simp only [List.cons_append]
        by_cases hem2 : (e.mac == mac) = true
        · rw [List.find?_cons_of_pos _ (by simpa using hem2),
              List.find?_cons_of_pos _ (by simpa using hem2)]
        · rw [List.find?_cons_of_neg _ (by simpa using hem2),
              List.find?_cons_of_neg _ (by simpa using hem2)]
          exact ih

/-- Fold invariant: a property preserved by `f` at every element of
`l` holds of the fold. -/
theorem foldl_inv {α β : Type} {f : α → β → α} {P : α → Prop} :
    ∀ (l : List β), (∀ a, ∀ b ∈ l, P a → P (f a b)) →
      ∀ (a : α), P a → P (l.foldl f a)
  | [], _, _, ha => ha
  | b :: l, hstep, a, ha =>
      foldl_inv l (fun a' b' hb' => hstep a' b' (List.mem_cons_of_mem b hb'))
        (f a b) (hstep a b (List.mem_cons_self b l) ha)

/-- Two devices with the same `buildStamp` have the same `sku` getter
value. -/
theorem sku_congr {x y : Device} (h : x.buildStamp = y.buildStamp) :
    x.sku = y.sku := by
  unfold Device.sku
  rw [h]

/-- In a table with unique keys, an entry is determined by its MAC. -/
theorem eq_of_keysNodup {t : List Device} (hnd : keysNodup t)
    {x y : Device} (hx : x ∈ t) (hy : y ∈ t) (hmac : x.mac = y.mac) :
    x = y :=
  List.inj_on_of_nodup_map hnd hx hy hmac

theorem classifyTask_mac (r bs bv kr : Option String) (tc : Int) (d : Device) :
    (classifyTask r bs bv kr tc d).mac = d.mac := by
  unfold classifyTask
  cases r with
  | none => rfl
  | some h =>
      by_cases hh : h = ""
      · simp [hh]
      · cases bs <;> simp [hh]

theorem classifyTask_seen (r bs bv kr : Option String) (tc : Int) (d : Device) :
    (classifyTask r bs bv kr tc d).seen = some tc := by
  unfold classifyTask
  cases r with
  | none => rfl
  | some h =>
      by_cases hh : h = ""
      · simp [hh]
      · cases bs <;> simp [hh]

/-- The merge step never removes a MAC from the table. -/
theorem step_isSome {o : Oracle} {now : Int} {ig : List String}
    {s : CycleState} {e : ScanEntry} {mac : String}
    (h : (tableGet s.table mac).isSome = true) :
    (tableGet (step o now ig s e).table mac).isSome = true := by
  unfold step
  split
  · exact h
  split
  · exact h
  split
  · split
    · exact tableGet_isSome_tableSet h
    · exact tableGet_isSome_tableSet h
  · exact tableGet_isSome_tableSet h

/-- The merge step on a scan entry for a different MAC does not create an entry
for `mac`. -/
theorem step_none {o : Oracle} {now : Int} {ig : List String}
    {s : CycleState} {e : ScanEntry} {mac : String} (hne : e.mac ≠ mac)
    (h : tableGet s.table mac = none) :
    tableGet (step o now ig s e).table mac = none := by
  unfold step
  split
  · exact h
  split
  · exact h
  split
  · rename_i saved heq
    have hsmac : saved.mac = e.mac := (tableGet_mem heq).2
    split
    · show tableGet (tableSet s.table
        { saved with seen := some now, ip := e.ip }) mac = none
      rw [tableGet_tableSet_ne
        (show ({ saved with seen := some now, ip := e.ip } : Device).mac ≠ mac
          from hsmac ▸ hne)]
      exact h
    · show tableGet (tableSet s.table (classifyTask (o.resolve e.ip)
        (o.bs e.ip) (o.bv e.ip) (o.kr e.ip) (o.doneAt e.ip)
        { mac := e.mac, ip := e.ip, tolerance := saved.tolerance })) mac = none
      rw [tableGet_tableSet_ne
        (show (classifyTask (o.resolve e.ip) (o.bs e.ip) (o.bv e.ip)
          (o.kr e.ip) (o.doneAt e.ip)
          { mac := e.mac, ip := e.ip, tolerance := saved.tolerance }).mac ≠ mac
          from by rw [classifyTask_mac]; exact hne)]
      exact h
  · show tableGet (tableSet s.table (classifyTask (o.resolve e.ip)
      (o.bs e.ip) (o.bv e.ip) (o.kr e.ip) (o.doneAt e.ip)
      { mac := e.mac, ip := e.ip })) mac = none
    rw [tableGet_tableSet_ne
      (show (classifyTask (o.resolve e.ip) (o.bs e.ip) (o.bv e.ip)
        (o.kr e.ip) (o.doneAt e.ip) { mac := e.mac, ip := e.ip }).mac ≠ mac
        from by rw [classifyTask_mac]; exact hne)]
    exact h

/-- The core invariant behind classification permanence: if every table
entry at `d.mac` carries `d`'s (SKU-qualifying) build stamp and the MAC
is present, then one merge step keeps that true and never dispatches a
classification task for `d.mac`. -/
theorem step_inv_classified {o : Oracle} {now : Int} {ig : List String}
    {d : Device} (hsku : d.sku = true) {s : CycleState} (e : ScanEntry)
    (h1 : ∀ x ∈ s.table, x.mac = d.mac → x.buildStamp = d.buildStamp)
    (h2 : (tableGet s.table d.mac).isSome = true)
    (h3 : d.mac ∉ s.dispatched) :
    (∀ x ∈ (step o now ig s e).table, x.mac = d.mac →
      x.buildStamp = d.buildStamp) ∧
    (tableGet (step o now ig s e).table d.mac).isSome = true ∧
    d.mac ∉ (step o now ig s e).dispatched := by
  unfold step
  split
  · exact ⟨h1, h2, h3⟩
  split
  · exact ⟨h1, h2, h3⟩
  split
  · rename_i saved heq
    have hsmem : saved ∈ s.table := (tableGet_mem heq).1
    have hsmac : saved.mac = e.mac := (tableGet_mem heq).2
    split
    · refine ⟨?_, tableGet_isSome_tableSet h2, h3⟩
      intro x hx hxmac
      rcases mem_tableSet hx with rfl | hx'
      · exact h1 saved hsmem hxmac
      · exact h1 x hx' hxmac
    · rename_i hskip
      have hne : e.mac ≠ d.mac := by
        intro hEq
        apply hskip
        have hsd : saved.buildStamp = d.buildStamp :=
          h1 saved hsmem (hsmac.trans hEq)
        have hsk : Device.sku { saved with seen := some now, ip := e.ip } = true := by
          have hcongr := sku_congr
            (x := { saved with seen := some now, ip := e.ip }) (y := d) hsd
          rw [hcongr, hsku]
        unfold skipsProbe
        rw [hsk, Bool.or_true]
      refine ⟨?_, tableGet_isSome_tableSet h2, ?_⟩
      · intro x hx hxmac
        rcases mem_tableSet hx with rfl | hx'
        · exact absurd ((classifyTask_mac _ _ _ _ _ _).symm.trans hxmac) hne
        · exact h1 x hx' hxmac
      · intro hmem
        rcases List.mem_cons.mp hmem with hEq | hmem'
        · exact hne hEq.symm
        · exact h3 hmem'
  · rename_i heq
    have hne : e.mac ≠ d.mac := by
      intro hEq
      rcases tableGet_isSome_iff.mp h2 with ⟨x, hx, hxmac⟩
      exact (tableGet_eq_none_iff.mp heq x hx) (hxmac.trans hEq.symm)
    refine ⟨?_, tableGet_isSome_tableSet h2, ?_⟩
    · intro x hx hxmac
      rcases mem_tableSet hx with rfl | hx'
      · exact absurd ((classifyTask_mac _ _ _ _ _ _).symm.trans hxmac) hne
      · exact h1 x hx' hxmac
    · intro hmem
      rcases List.mem_cons.mp hmem with hEq | hmem'
      · exact hne hEq.symm
      · exact h3 hmem'

/-! ### Claims -/

/-- C1: the spec expects a device whose resolver fails in 6 consecutive
cycles to reach `tolerance = 6` and be skipped in cycle 7.  In the code
a new device is created without a `tolerance` property, so the first
`device.tolerance++` yields `NaN`, `NaN > MAX_TOLERANCE` is `false`,
and the device is enqueued again in cycle 7 (and forever after): after
6 all-failing cycles the stored tolerance is `NaN`, not 6, and cycle 7
still dispatches a classification task for the MAC. -/
theorem C1_throttling_code_bug :
    (tableGet (cycleN 6) "AA:BB").map (fun d => d.tolerance) = some Tol.nan ∧
    "AA:BB" ∈ (deviceScanFull nullOracle 0 [] oneScan (cycleN 6)).dispatched := by
  decide

/-- C2: the spec expects `tolerance` to start at exactly 0 on device
creation and move only by `+1` per failure or reset to 0.  The code
creates devices without the property (`undefined`), and the first
failed attempt turns it into `NaN` — not `1`. -/
theorem C2_tolerance_code_bug :
    (tableGet (cycleN 1) "AA:BB").map (fun d => d.tolerance) = some Tol.nan ∧
    Tol.undef.inc = Tol.nan ∧ Tol.nan ≠ Tol.num 1 := by
  decide

/-- C3 (counterexample): the claim says that once `buildStamp` has been
set by a classification task no subsequent task is ever dispatched for
that MAC.  A task that reads an empty build stamp sets
`buildStamp = ""`, yet `sku` is `!!""` = false, so the next cycle
re-enqueues the MAC and its fresh scan object (no `buildStamp`)
replaces the entry. -/
theorem C3_counterexample :
    (tableGet t3a "AA:BB").map (fun d => d.buildStamp) = some (some "") ∧
    "AA:BB" ∈ (deviceScanFull nullOracle 0 [] oneScan t3a).dispatched ∧
    (tableGet (deviceScan nullOracle 0 [] oneScan t3a) "AA:BB").map
      (fun d => d.buildStamp) = some none := by
  decide

/-- C3 (amended): once `buildStamp` holds a non-empty string (the `sku`
getter is true), then during any cycle in which the entry is not
evicted its `buildStamp` is unchanged and no classification task is
dispatched for its MAC. -/
theorem C3_permanence (o : Oracle) (now : Int) (ig : List String)
    (scan : List ScanEntry) (t : List Device) (d d' : Device)
    (hnd : keysNodup t) (hmem : d ∈ t) (hsku : d.sku = true)
    (hfresh : now - d.seen.getD 0 < 60000)
    (hmem' : d' ∈ (deviceScanFull o now ig scan t).table)
    (hmac : d'.mac = d.mac) :
    d'.buildStamp = d.buildStamp ∧
    d.mac ∉ (deviceScanFull o now ig scan t).dispatched := by
  have hinit1 : ∀ x ∈ evict now t, x.mac = d.mac → x.buildStamp = d.buildStamp := by
    intro x hx hxmac
    have hx' : x ∈ t := (List.mem_filter.mp hx).1
    rw [eq_of_keysNodup hnd hx' hmem hxmac]
  have hdev : d ∈ evict now t := by
    refine List.mem_filter.mpr ⟨hmem, ?_⟩
    simpa using hfresh
  have hP := foldl_inv
    (f := step o now ig)
    (P := fun s => (∀ x ∈ s.table, x.mac = d.mac → x.buildStamp = d.buildStamp) ∧
      (tableGet s.table d.mac).isSome = true ∧ d.mac ∉ s.dispatched)
    scan
    (fun a b _hb hPa => step_inv_classified hsku b hPa.1 hPa.2.1 hPa.2.2)
    ⟨[], evict now t, []⟩
    ⟨hinit1, tableGet_isSome_of_mem hdev, by simp⟩
  exact ⟨hP.1 d' hmem' hmac, hP.2.2⟩

/-- C3 (witness): a classified entry seen this cycle keeps its build
stamp and is not re-probed. -/
theorem C3_witness :
    skuDev.buildStamp = skuDev.buildStamp ∧
    skuDev.mac ∉ (deviceScanFull nullOracle 0 [] oneScan [skuDev]).dispatched :=
  C3_permanence nullOracle 0 [] oneScan [skuDev] skuDev skuDev
    (by decide) (by decide) (by decide) (by decide) (by decide) rfl

/-- C4: on every pass, entries stale for ≥ 60 s do not survive
eviction, fresh entries survive it and their MAC is still in the table
after the whole pass, and a stale entry whose MAC is not in this
cycle's scan is absent from the table after the pass. -/
theorem C4_eviction (o : Oracle) (now : Int) (ig : List String)
    (scan : List ScanEntry) (t : List Device) (d : Device)
    (hnd : keysNodup t) (hmem : d ∈ t) :
    (60000 ≤ now - d.seen.getD 0 → d ∉ evict now t) ∧
    (now - d.seen.getD 0 < 60000 → d ∈ evict now t ∧
      (tableGet (deviceScan o now ig scan t) d.mac).isSome = true) ∧
    (60000 ≤ now - d.seen.getD 0 → d.mac ∉ scan.map (fun e => e.mac) →
      tableGet (deviceScan o now ig scan t) d.mac = none) := by
  refine ⟨?_, ?_, ?_⟩
  · intro hstale hmemf
    have hcond := (List.mem_filter.mp hmemf).2
    simp at hcond
    omega
  · intro hfresh
    have hdev : d ∈ evict now t :=
      List.mem_filter.mpr ⟨hmem, by simpa using hfresh⟩
    refine ⟨hdev, ?_⟩
    exact foldl_inv
      (f := step o now ig)
      (P := fun s => (tableGet s.table d.mac).isSome = true)
      scan (fun a b _hb hPa => step_isSome hPa)
      ⟨[], evict now t, []⟩ (tableGet_isSome_of_mem hdev)
  · intro hstale hnot
    have hnone : tableGet (evict now t) d.mac = none := by
      rw [tableGet_eq_none_iff]
      intro x hx hxmac
      have hx' : x ∈ t := (List.mem_filter.mp hx).1
      have hxd : x = d := eq_of_keysNodup hnd hx' hmem hxmac
      subst hxd
      have hcond := (List.mem_filter.mp hx).2
      simp at hcond
      omega
    exact foldl_inv
      (f := step o now ig)
      (P := fun s => tableGet s.table d.mac = none)
      scan
      (fun a e he hPa =>
        step_none (fun hEq => hnot (List.mem_map.mpr ⟨e, he, hEq⟩)) hPa)
      ⟨[], evict now t, []⟩ hnone

/-- C4 (witness): an entry unseen for exactly 60 s is evicted and, with
an empty scan, absent after the pass. -/
theorem C4_witness :
    stale0 ∉ evict 60000 [stale0] ∧
    tableGet (deviceScan nullOracle 60000 [] [] [stale0]) stale0.mac = none :=
  ⟨(C4_eviction nullOracle 60000 [] [] [stale0] stale0 (by decide) (by decide)).1
      (by decide),
   (C4_eviction nullOracle 60000 [] [] [stale0] stale0 (by decide) (by decide)).2.2
      (by decide) (by decide)⟩

/-- C5 (counterexample): the claim says a `null` resolution touches no
hostname field, but the task assigns `device.hostname = hostname`
before the `null` check, so the property changes from unassigned to
JS `null`. -/
theorem C5_counterexample :
    (classifyTask none none none none 0 dev0).hostname ≠ dev0.hostname ∧
    (classifyTask none none none none 0 dev0).hostname = some none := by
  decide

/-- C5 (amended): `seen` is set to the completion time in every case;
on `null` resolution the hostname is assigned the null result, the
tolerance is incremented (JS `++`) and no SKU field changes; on an
empty-string resolution the hostname becomes `""` and nothing else
changes (no probe, no tolerance change). -/
theorem C5_null_resolution (r bs bv kr : Option String) (tc : Int) (d : Device) :
    (classifyTask r bs bv kr tc d).seen = some tc ∧
    classifyTask none bs bv kr tc d =
      { d with hostname := some none, seen := some tc,
               tolerance := d.tolerance.inc } ∧
    classifyTask (some "") bs bv kr tc d =
      { d with hostname := some (some ""), seen := some tc } := by
  refine ⟨classifyTask_seen r bs bv kr tc d, rfl, ?_⟩
  unfold classifyTask
  simp

/-- C6 (counterexample): the claim says a resolved-but-unclassified
hostname remains on the entry in subsequent cycles.  The re-enqueued
cycle replaces the entry with a fresh scan object and the task then
stores the new resolution result, so a following failed resolution
leaves `hostname = null`, not the previously resolved name. -/
theorem C6_counterexample :
    (tableGet t6a "AA:BB").map (fun d => d.hostname) =
      some (some (some "boxy")) ∧
    (tableGet t6a "AA:BB").map (fun d => d.buildStamp) = some none ∧
    (tableGet t6b "AA:BB").map (fun d => d.hostname) = some (some none) := by
  decide

/-- C6 (amended): within the cycle that resolved the hostname and
failed to obtain a build stamp, the task leaves the hostname set on the
entry while incrementing the tolerance and leaving `buildStamp`
unchanged; the name survives only until the next cycle's task
overwrites it with that cycle's resolution result. -/
theorem C6_hostname_kept (h : String) (hh : h ≠ "") (bv kr : Option String)
    (tc : Int) (d : Device) :
    (classifyTask (some h) none bv kr tc d).hostname = some (some h) ∧
    (classifyTask (some h) none bv kr tc d).tolerance = d.tolerance.inc ∧
    (classifyTask (some h) none bv kr tc d).buildStamp = d.buildStamp := by
  unfold classifyTask
  simp [hh]

/-- C6 (witness). -/
theorem C6_witness :
    (classifyTask (some "boxy") none none none 0 dev0).hostname =
      some (some "boxy") ∧
    (classifyTask (some "boxy") none none none 0 dev0).tolerance =
      dev0.tolerance.inc ∧
    (classifyTask (some "boxy") none none none 0 dev0).buildStamp =
      dev0.buildStamp :=
  C6_hostname_kept "boxy" (by decide) none none 0 dev0

/-- C7: `/devices` answers JSON exactly when the Accept header contains
`application/json` and plain text otherwise; every rendered element
comes from a table device whose `sku` getter is true; a device without
a `buildStamp` has `sku = false` and therefore never appears. -/
theorem C7_devices_endpoint (accept : String) (t : List Device) :
    ((∃ l, devicesEndpoint accept t = .json l) ↔ includesJson accept = true) ∧
    (∀ l p, devicesEndpoint accept t = .json l → p ∈ l →
      ∃ d, d ∈ t ∧ d.sku = true ∧
        p = (hostnameKey d.hostname, d.projection)) ∧
    (∀ s, devicesEndpoint accept t = .text s →
      ∃ ds : List Device, (∀ d ∈ ds, d ∈ t ∧ d.sku = true) ∧
        s = String.intercalate "," (ds.map (fun d => hostnameKey d.hostname))) ∧
    (∀ d : Device, d.buildStamp = none → d.sku = false) := by
  refine ⟨?_, ?_, ?_, ?_⟩
  · constructor
    · rintro ⟨l, hl⟩
      by_contra hj
      unfold devicesEndpoint at hl
      rw [if_neg hj] at hl
      exact DevicesResponse.noConfusion hl
    · intro hj
      exact ⟨_, by unfold devicesEndpoint; rw [if_pos hj]⟩
  · intro l p hl hp
    unfold devicesEndpoint at hl
    by_cases hj : includesJson accept = true
    · rw [if_pos hj] at hl
      injection hl with hl
      subst hl
      rcases List.mem_map.mp hp with ⟨d, hd, hdp⟩
      rcases List.mem_filter.mp hd with ⟨hdt, hds⟩
      exact ⟨d, hdt, hds, hdp.symm⟩
    · rw [if_neg hj] at hl
      exact DevicesResponse.noConfusion hl
  · intro s hs
    unfold devicesEndpoint at hs
    by_cases hj : includesJson accept = true
    · rw [if_pos hj] at hs
      exact DevicesResponse.noConfusion hs
    · rw [if_neg hj] at hs
      injection hs with hs
      refine ⟨t.filter (fun d => d.sku), ?_, hs.symm⟩
      intro d hd
      exact ⟨(List.mem_filter.mp hd).1, (List.mem_filter.mp hd).2⟩
  · intro d hd
    unfold Device.sku
    rw [hd]

/-- C8: the next cycle is scheduled after exactly
`max(0, 10000 - elapsed)` milliseconds: never negative, the full period
minus the overrun when the cycle fit in the period, zero otherwise. -/
theorem C8_self_pacing (s n : Int) :
    nextScanDelay s n = max 0 (10000 - (n - s)) ∧
    0 ≤ nextScanDelay s n ∧
    (n - s ≤ 10000 → nextScanDelay s n = 10000 - (n - s)) ∧
    (10000 ≤ n - s → nextScanDelay s n = 0) := by
  refine ⟨rfl, le_max_left _ _, ?_, ?_⟩ <;>
    intro h <;> unfold nextScanDelay <;> omega

/-- C9 (counterexample): the claim says a successful build-stamp read
returns the first non-comment line of the file.  `waitSSH` trims the
SSH output first, so for file content `"\nA"` — whose first
non-comment line is the empty line — the code returns `"A"`. -/
theorem C9_counterexample :
    buildStamp (.exited 0 "\nA") = some "A" ∧
    firstNonComment (splitNewline "\nA") = some "" ∧
    ("A" : String) ≠ "" := by
  decide

/-- C9 (amended): each of the three probes returns `string | null`; an
invocation exceeding its bound is killed and yields `null` (never an
error), as does a non-zero exit; on success the build-stamp read
returns the first non-comment line of the trimmed file content
(whitespace-only content counts as failure), and the BIOS/kernel reads
return the trimmed output. -/
theorem C9_probes (c : Int) (out : String) (l : String) (hc : c ≠ 0) :
    waitSSH .timeout = none ∧ buildStamp .timeout = none ∧
    biosVersion .timeout = none ∧ kernel .timeout = none ∧
    buildStamp (.exited c out) = none ∧
    biosVersion (.exited c out) = none ∧
    kernel (.exited c out) = none ∧
    (jsTrim out ≠ "" → firstNonComment (splitNewline (jsTrim out)) = some l →
      buildStamp (.exited 0 out) = some l) ∧
    (jsTrim out ≠ "" → firstNonComment (splitNewline (jsTrim out)) = none →
      buildStamp (.exited 0 out) = none) ∧
    biosVersion (.exited 0 out) = some (jsTrim out) ∧
    kernel (.exited 0 out) = some (jsTrim out) := by
  have hws : waitSSH (.exited c out) = none := by
    simp only [waitSSH]
    rw [if_pos hc]
  have hws0 : waitSSH (.exited 0 out) = some (jsTrim out) := by
    simp only [waitSSH]
    rw [if_neg (by omega : ¬ (0 : Int) ≠ 0)]
  refine ⟨rfl, rfl, rfl, rfl, ?_, hws, hws, ?_, ?_, ?_, ?_⟩
  · simp only [buildStamp, hws]
  · intro hne hfc
    simp only [buildStamp, hws0]
    rw [if_neg hne, hfc]
  · intro hne hfc
    simp only [buildStamp, hws0]
    rw [if_neg hne, hfc]
  · show waitSSH (.exited 0 out) = some (jsTrim out)
    exact hws0
  · show waitSSH (.exited 0 out) = some (jsTrim out)
    exact hws0

/-- C9 (witness): a timed-out probe yields `null`; a successful read of
`"#x\nB\nC"` yields its first non-comment line `"B"`. -/
theorem C9_witness :
    buildStamp (.exited 0 "#x\nB\nC") = some "B" :=
  ((((((((C9_probes 1 "#x\nB\nC" "B" (by decide)).2).2).2).2).2).2).2).1
    (by decide) (by decide)

/-- C10: a classification task whose build-stamp read returns `""` sets
`buildStamp = ""` and resets tolerance to 0, yet the `sku` getter stays
false, so the device is excluded from the `/devices` output (it never
passes the `sku` filter) and the next merge does not skip it
(`skipsProbe` is false), keeping it eligible for re-probing; and the
embedded `sku.buildStamp` really can return `""` (file content
`"#c\n\nv"`). -/
theorem C10_empty_buildstamp (h : String) (hh : h ≠ "")
    (bv kr : Option String) (tc : Int) (d : Device) :
    (classifyTask (some h) (some "") bv kr tc d).buildStamp = some "" ∧
    (classifyTask (some h) (some "") bv kr tc d).tolerance = Tol.num 0 ∧
    (classifyTask (some h) (some "") bv kr tc d).sku = false ∧
    skipsProbe (classifyTask (some h) (some "") bv kr tc d) = false ∧
    (∀ t : List Device,
      classifyTask (some h) (some "") bv kr tc d ∉ t.filter (fun x => x.sku)) ∧
    buildStamp (.exited 0 "#c\n\nv") = some "" := by
  have hbs : (classifyTask (some h) (some "") bv kr tc d).buildStamp = some "" := by
    unfold classifyTask
    simp [hh]
  have hsku : (classifyTask (some h) (some "") bv kr tc d).sku = false := by
    unfold Device.sku
    rw [hbs]
    simp
  refine ⟨hbs, ?_, hsku, ?_, ?_, by decide⟩
  · unfold classifyTask
    simp [hh]
  · unfold skipsProbe
    rw [hsku]
    have htol : (classifyTask (some h) (some "") bv kr tc d).tolerance = Tol.num 0 := by
      unfold classifyTask
      simp [hh]
    rw [htol]
    rfl
  · intro t hmem
    rw [List.mem_filter] at hmem
    rw [hsku] at hmem
    exact Bool.noConfusion hmem.2

/-- C10 (witness). -/
theorem C10_witness :
    (classifyTask (some "boxy") (some "") none none 0 dev0).sku = false ∧
    skipsProbe (classifyTask (some "boxy") (some "") none none 0 dev0) = false :=
  ⟨(C10_empty_buildstamp "boxy" (by decide) none none 0 dev0).2.2.1,
   (C10_empty_buildstamp "boxy" (by decide) none none 0 dev0).2.2.2.1⟩

end Hob
